import Mathlib

/-!
Verification of the quote-generation and order-lifecycle logic of the
aftermath-market-maker repository.

Prices, sizes and notionals are modelled as rationals (ℚ).  JavaScript
`Math.floor` / `Math.ceil` become `Int.floor` / `Int.ceil`, and the
TypeScript number comparisons become the corresponding ℚ comparisons.
The Quoter class state (config, optional market metadata) is passed
explicitly to each function; the optional orderbook parameter becomes an
`Option Orderbook` argument.
-/

namespace Aftermath

/-- Configuration of the market maker, from src/bots/mm/config.ts as used by
the quoter: symbol, spreads (bps), close-mode threshold and order notional. -/
structure MarketMakerConfig where
  symbol : String
  spreadBps : ℚ
  takeProfitBps : ℚ
  closeThresholdUsd : ℚ
  orderSizeUsd : ℚ
deriving Repr

/-- Market metadata cached inside the Quoter: tick size and size precision. -/
structure Market where
  symbol : String
  tickSize : ℚ
  sizePrecision : ℕ
deriving Repr

/-- Orderbook snapshot: bids and asks as (price, size) pairs, best first. -/
structure Orderbook where
  bids : List (ℚ × ℚ)
  asks : List (ℚ × ℚ)
deriving Repr

/-- Quote record returned by generateQuotes (quoter.ts lines 8-16). -/
structure Quote where
  bidPrice : ℚ
  askPrice : ℚ
  bidSize : ℚ
  askSize : ℚ
  fairPrice : ℚ
  spreadBps : ℚ
  isCloseMode : Bool
deriving Repr, DecidableEq

/-- Direction argument of roundToTick. -/
inductive RoundDir where
  | up
  | down
deriving Repr, DecidableEq

/-- roundToTick (quoter.ts lines 161-169): floor or ceil the price to a
multiple of the tick size; pass through when no market metadata is set. -/
def roundToTick (market : Option Market) (price : ℚ) (direction : RoundDir) : ℚ :=
  match market with
  | none => price
  | some m =>
    match direction with
    | .down => ⌊price / m.tickSize⌋ * m.tickSize
    | .up => ⌈price / m.tickSize⌉ * m.tickSize

/-- roundSize (quoter.ts lines 174-180): ceil the size to the market size
precision; pass through when no market metadata is set. -/
def roundSize (market : Option Market) (size : ℚ) : ℚ :=
  match market with
  | none => size
  | some m => ⌈size * 10 ^ m.sizePrecision⌉ / 10 ^ m.sizePrecision

/-- Post-only safety clamp for the bid (quoter.ts lines 69-76): if asks are
present and the bid would touch or cross the best ask, cap it at
bestAsk - tickSize via Math.min. -/
def clampBid (tickSize : ℚ) (asks : List (ℚ × ℚ)) (bid : ℚ) : ℚ :=
  match asks with
  | [] => bid
  | (bestAsk, _) :: _ =>
    let maxBid := bestAsk - tickSize
    if bid ≥ bestAsk then min bid maxBid else bid

/-- Post-only safety clamp for the ask (quoter.ts lines 79-86): if bids are
present and the ask would touch or cross the best bid, raise it to
bestBid + tickSize via Math.max. -/
def clampAsk (tickSize : ℚ) (bids : List (ℚ × ℚ)) (ask : ℚ) : ℚ :=
  match bids with
  | [] => ask
  | (bestBid, _) :: _ =>
    let minAsk := bestBid + tickSize
    if ask ≤ bestBid then max ask minAsk else ask

/-- Close-mode flag (quoter.ts line 45): absolute position notional strictly
above the configured threshold. -/
def isCloseModeOf (config : MarketMakerConfig) (positionNotional : ℚ) : Bool :=
  decide (|positionNotional| > config.closeThresholdUsd)

/-- Effective spread (quoter.ts line 48): takeProfitBps in close mode,
otherwise the configured spreadBps. -/
def spreadBpsOf (config : MarketMakerConfig) (positionNotional : ℚ) : ℚ :=
  if isCloseModeOf config positionNotional then config.takeProfitBps else config.spreadBps

/-- Clamp of non-positive raw prices to 0 (quoter.ts lines 58-59). -/
def posOr0 (p : ℚ) : ℚ :=
  if p ≤ 0 then 0 else p

/-- Bid price pipeline of generateQuotes (quoter.ts lines 54-88): raw price
from the spread, clamp at 0, then - only when market metadata is set - tick
rounding down and, when an orderbook is also supplied, the post-only clamp. -/
def bidPriceOf (config : MarketMakerConfig) (market : Option Market)
    (fairPrice positionNotional : ℚ) (orderbook : Option Orderbook) : ℚ :=
  let raw := fairPrice * (1 - spreadBpsOf config positionNotional / 10000)
  match market with
  | none => posOr0 raw
  | some m =>
    let rounded := roundToTick (some m) (posOr0 raw) .down
    match orderbook with
    | none => rounded
    | some book => clampBid m.tickSize book.asks rounded

/-- Ask price pipeline of generateQuotes (quoter.ts lines 55-88), symmetric
to the bid: clamp at 0, tick rounding up, post-only clamp against the bids. -/
def askPriceOf (config : MarketMakerConfig) (market : Option Market)
    (fairPrice positionNotional : ℚ) (orderbook : Option Orderbook) : ℚ :=
  let raw := fairPrice * (1 + spreadBpsOf config positionNotional / 10000)
  match market with
  | none => posOr0 raw
  | some m =>
    let rounded := roundToTick (some m) (posOr0 raw) .up
    match orderbook with
    | none => rounded
    | some book => clampAsk m.tickSize book.bids rounded

/-- Bid size pipeline of generateQuotes (quoter.ts lines 92-112): notional
divided by the final bid price when that price is positive, zeroed in close
mode for a long position, then rounded up to the size precision. -/
def bidSizeOf (config : MarketMakerConfig) (market : Option Market)
    (fairPrice positionNotional : ℚ) (orderbook : Option Orderbook) : ℚ :=
  let p := bidPriceOf config market fairPrice positionNotional orderbook
  let s := if 0 < p then config.orderSizeUsd / p else 0
  let s2 := if isCloseModeOf config positionNotional ∧ 0 < positionNotional then 0 else s
  roundSize market s2

/-- Ask size pipeline of generateQuotes (quoter.ts lines 93-112): notional
divided by the final ask price when that price is positive, zeroed in close
mode for a short (or flat) position, then rounded up to the size precision. -/
def askSizeOf (config : MarketMakerConfig) (market : Option Market)
    (fairPrice positionNotional : ℚ) (orderbook : Option Orderbook) : ℚ :=
  let p := askPriceOf config market fairPrice positionNotional orderbook
  let s := if 0 < p then config.orderSizeUsd / p else 0
  let s2 := if isCloseModeOf config positionNotional ∧ ¬0 < positionNotional then 0 else s
  roundSize market s2

/-- generateQuotes (quoter.ts lines 43-123), assembled from the per-field
pipelines above. -/
def generateQuotes (config : MarketMakerConfig) (market : Option Market)
    (fairPrice positionNotional : ℚ) (orderbook : Option Orderbook) : Quote :=
  { bidPrice := bidPriceOf config market fairPrice positionNotional orderbook
    askPrice := askPriceOf config market fairPrice positionNotional orderbook
    bidSize := bidSizeOf config market fairPrice positionNotional orderbook
    askSize := askSizeOf config market fairPrice positionNotional orderbook
    fairPrice := fairPrice
    spreadBps := spreadBpsOf config positionNotional
    isCloseMode := isCloseModeOf config positionNotional }

/-- Order side. -/
inductive Side where
  | buy
  | sell
deriving Repr, DecidableEq

/-- Order request produced by quoteToOrders (types.ts). -/
structure OrderRequest where
  symbol : String
  side : Side
  type : String
  price : ℚ
  size : ℚ
  postOnly : Bool
  reduceOnly : Bool
deriving Repr, DecidableEq

/-- Buy-side order request pushed by quoteToOrders (quoter.ts lines 131-141). -/
def bidOrderOf (config : MarketMakerConfig) (quote : Quote) (reduceOnly : Bool) :
    OrderRequest :=
  { symbol := config.symbol
    side := .buy
    type := "limit"
    price := quote.bidPrice
    size := quote.bidSize
    postOnly := true
    reduceOnly := reduceOnly || quote.isCloseMode }

/-- Sell-side order request pushed by quoteToOrders (quoter.ts lines 143-153). -/
def askOrderOf (config : MarketMakerConfig) (quote : Quote) (reduceOnly : Bool) :
    OrderRequest :=
  { symbol := config.symbol
    side := .sell
    type := "limit"
    price := quote.askPrice
    size := quote.askSize
    postOnly := true
    reduceOnly := reduceOnly || quote.isCloseMode }

/-- quoteToOrders (quoter.ts lines 128-156): one limit order per side with
positive size, bid first, always post-only, reduce-only when the override or
the close-mode flag is set. -/
def quoteToOrders (config : MarketMakerConfig) (quote : Quote)
    (reduceOnly : Bool := false) : List OrderRequest :=
  (if quote.bidSize > 0 then [bidOrderOf config quote reduceOnly] else []) ++
  (if quote.askSize > 0 then [askOrderOf config quote reduceOnly] else [])

/-- isOrderStale (quoter.ts lines 189-198): relative deviation in bps above
the threshold. -/
def isOrderStale (orderPrice : ℚ) (fairPrice : ℚ) (maxDeviationBps : ℚ := 50) : Bool :=
  decide (|orderPrice - fairPrice| / fairPrice * 10000 > maxDeviationBps)

/-!
Model of cancelAllOrders (src/exchanges/hyperliquid/orders.ts lines 191-258).
The network environment is passed in explicitly: the result of fetching open
orders, the market list used for symbol resolution, and the outcome of the
batched cancel request.  Raising an exception is modelled as Except.error.
-/

/-- Open order as consumed by cancelAllOrders: id and symbol. -/
structure ExOrder where
  id : String
  symbol : String
deriving Repr, DecidableEq

/-- Market record as consumed by cancelAllOrders: id and base coin. -/
structure ExMarket where
  id : String
  base : String
deriving Repr, DecidableEq

/-- Per-order status in a batched cancel response: the "success" sentinel or
an error object whose message field may be absent (the code reads
errorStatus.error with optional chaining). -/
inductive CancelStatus where
  | success
  | error (msg : Option String)
deriving Repr, DecidableEq

/-- Response payload carrying a parallel per-order status array. -/
structure CancelResponse where
  statuses : List CancelStatus
deriving Repr, DecidableEq

/-- Outcome of the batched cancel call: a normal response, a thrown error
that still wraps a response with a status array (orders.ts lines 223-228),
or a plain thrown error without one (orders.ts lines 229-231). -/
inductive CancelBatchOutcome where
  | ok (resp : CancelResponse)
  | errWithStatuses (resp : CancelResponse)
  | errPlain (msg : String)
deriving Repr, DecidableEq

/-- First segment of a symbol, as in the JS idiom symbol.split("/")[0]
(orders.ts line 208): the characters before the first slash. -/
def baseOf (symbol : String) : String :=
  String.mk (symbol.toList.takeWhile (fun c => !(c == '/')))

/-- Market lookup by base coin (orders.ts line 208). -/
def findMarket (markets : List ExMarket) (symbol : String) : Option ExMarket :=
  markets.find? (fun m => m.base == baseOf symbol)

/-- Substring test modelling String.prototype.includes. -/
def includesStr (s pat : String) : Bool :=
  decide (pat.toList <:+: s.toList)

/-- Test of the "already canceled, or filled" marker in an error message
(orders.ts line 243). -/
def isAlreadyGoneMsg (msg : String) : Bool :=
  includesStr msg "already canceled, or filled"

/-- One step of the forEach classification loop (orders.ts lines 238-251):
the success sentinel or an already-gone error message increments
successCount, anything else increments failCount. -/
def classifyStep (acc : ℕ × ℕ) (cancelStatus : CancelStatus) : ℕ × ℕ :=
  match cancelStatus with
  | .success => (acc.1 + 1, acc.2)
  | .error msg =>
    if (msg.map isAlreadyGoneMsg).getD false then (acc.1 + 1, acc.2)
    else (acc.1, acc.2 + 1)

/-- The (successCount, failCount) summary computed by the forEach loop. -/
def classifyCancelStatuses (statuses : List CancelStatus) : ℕ × ℕ :=
  statuses.foldl classifyStep (0, 0)

/-- Statuses counted as successful: the sentinel, or an error whose message
contains the already-gone marker. -/
def statusSucceeds (st : CancelStatus) : Bool :=
  match st with
  | .success => true
  | .error msg => (msg.map isAlreadyGoneMsg).getD false

/-- Construction of the batched cancel request (orders.ts lines 207-216):
resolve each order's market left to right, throwing on the first order whose
market is missing. -/
def buildCancels (markets : List ExMarket) : List ExOrder → Except String (List (String × String))
  | [] => .ok []
  | o :: rest =>
    match findMarket markets o.symbol with
    | some m => (buildCancels markets rest).map (fun cs => (m.id, o.id) :: cs)
    | none => .error ("Market not found for symbol: " ++ o.symbol)

/-- cancelAllOrders (orders.ts lines 191-258): propagate a fetch failure,
return (0,0) when there is nothing to cancel, throw on an unresolvable
market, read the status array from a normal response or from an
error-wrapped response, rethrow a plain error, and classify the statuses. -/
def cancelAllOrders (fetchResult : Except String (List ExOrder))
    (markets : List ExMarket) (batchOutcome : CancelBatchOutcome) :
    Except String (ℕ × ℕ) :=
  match fetchResult with
  | .error e => .error e
  | .ok openOrders =>
    if openOrders.isEmpty then .ok (0, 0)
    else
      match buildCancels markets openOrders with
      | .error e => .error e
      | .ok _cancels =>
        match batchOutcome with
        | .ok resp => .ok (classifyCancelStatuses resp.statuses)
        | .errWithStatuses resp => .ok (classifyCancelStatuses resp.statuses)
        | .errPlain msg => .error msg

/-! Concrete fixtures used by the witness and counterexample theorems. -/

/-- Sample configuration: spread 10 bps, take-profit 20 bps, close threshold
500 USD, order size 10 USD. -/
def cfgW : MarketMakerConfig := ⟨"TEST", 10, 20, 500, 10⟩

/-- Sample configuration with a spec-valid but extreme takeProfitBps of
10000, used to refute C3 as stated. -/
def cfgB : MarketMakerConfig := ⟨"TEST", 10, 10000, 500, 10⟩

/-- Sample market metadata: tick size 1, size precision 1. -/
def mW : Market := ⟨"TEST", 1, 1⟩

/-- Sample orderbook: best bid 99, best ask 105. -/
def bookW : Orderbook := ⟨[(99, 1)], [(105, 1)]⟩

/-- Sample open-orders list: one resting order on AAA. -/
def orders1 : List ExOrder := [⟨"77", "AAA/USD:USD"⟩]

/-- Sample market list resolving the AAA base coin. -/
def markets1 : List ExMarket := [⟨"3", "AAA"⟩]

/-- Sample already-gone cancellation error message. -/
def goneW : String := "Order was never placed, already canceled, or filled."

/-- Sample status array: one already-gone error followed by two successes. -/
def S7 : List CancelStatus := [.error (some goneW), .success, .success]

/-! Helper lemmas about the rounding and clamping primitives. -/

lemma posOr0_nonneg (p : ℚ) : 0 ≤ posOr0 p := by
  unfold posOr0
  split
  · exact le_refl 0
  · next h => exact (not_le.mp h).le

lemma posOr0_eq_max (p : ℚ) : posOr0 p = max 0 p := by
  unfold posOr0
  split
  · next h => exact (max_eq_left h).symm
  · next h => exact (max_eq_right (not_le.mp h).le).symm

lemma posOr0_of_pos {p : ℚ} (h : 0 < p) : posOr0 p = p := by
  unfold posOr0
  split
  · next h2 => exact absurd h (not_lt.mpr h2)
  · rfl

lemma roundSize_le (market : Option Market) (s : ℚ) : s ≤ roundSize market s := by
  unfold roundSize
  match market with
  | none => exact le_refl s
  | some m =>
    have hM : (0:ℚ) < 10 ^ m.sizePrecision := by positivity
    rw [le_div_iff₀ hM]
    exact Int.le_ceil _

lemma roundSize_zero (market : Option Market) : roundSize market 0 = 0 := by
  unfold roundSize
  match market with
  | none => rfl
  | some m => simp

lemma roundSize_nonneg (market : Option Market) {s : ℚ} (h : 0 ≤ s) :
    0 ≤ roundSize market s :=
  le_trans h (roundSize_le market s)

lemma roundSize_pos (market : Option Market) {s : ℚ} (h : 0 < s) :
    0 < roundSize market s :=
  lt_of_lt_of_le h (roundSize_le market s)

lemma roundSize_ne_zero_imp (market : Option Market) {s : ℚ}
    (h : roundSize market s ≠ 0) : s ≠ 0 := by
  intro hs
  exact h (hs ▸ roundSize_zero market)

lemma roundToTick_down_nonneg (m : Market) (ht : 0 < m.tickSize) {x : ℚ} (hx : 0 ≤ x) :
    0 ≤ roundToTick (some m) x .down := by
  unfold roundToTick
  exact mul_nonneg (by exact_mod_cast Int.floor_nonneg.mpr (div_nonneg hx ht.le)) ht.le

lemma roundToTick_up_nonneg (m : Market) (ht : 0 < m.tickSize) {x : ℚ} (hx : 0 ≤ x) :
    0 ≤ roundToTick (some m) x .up := by
  unfold roundToTick
  exact mul_nonneg (by exact_mod_cast Int.ceil_nonneg (div_nonneg hx ht.le)) ht.le

lemma le_roundToTick_up (m : Market) (ht : 0 < m.tickSize) (x : ℚ) :
    x ≤ roundToTick (some m) x .up := by
  unfold roundToTick
  exact (div_le_iff₀ ht).mp (Int.le_ceil (x / m.tickSize))

lemma roundToTick_int_mul (m : Market) (ht : m.tickSize ≠ 0) (k : ℤ) (dir : RoundDir) :
    roundToTick (some m) (k * m.tickSize) dir = k * m.tickSize := by
  match dir with
  | .down =>
    show (⌊(k : ℚ) * m.tickSize / m.tickSize⌋ : ℚ) * m.tickSize = (k : ℚ) * m.tickSize
    rw [mul_div_cancel_right₀ _ ht, Int.floor_intCast]
  | .up =>
    show (⌈(k : ℚ) * m.tickSize / m.tickSize⌉ : ℚ) * m.tickSize = (k : ℚ) * m.tickSize
    rw [mul_div_cancel_right₀ _ ht, Int.ceil_intCast]

/-! Unfolding lemmas for the generateQuotes field pipelines. -/

lemma generateQuotes_bidPrice (config : MarketMakerConfig) (market : Option Market)
    (fair n : ℚ) (ob : Option Orderbook) :
    (generateQuotes config market fair n ob).bidPrice = bidPriceOf config market fair n ob := rfl

lemma generateQuotes_askPrice (config : MarketMakerConfig) (market : Option Market)
    (fair n : ℚ) (ob : Option Orderbook) :
    (generateQuotes config market fair n ob).askPrice = askPriceOf config market fair n ob := rfl

lemma generateQuotes_bidSize (config : MarketMakerConfig) (market : Option Market)
    (fair n : ℚ) (ob : Option Orderbook) :
    (generateQuotes config market fair n ob).bidSize = bidSizeOf config market fair n ob := rfl

lemma generateQuotes_askSize (config : MarketMakerConfig) (market : Option Market)
    (fair n : ℚ) (ob : Option Orderbook) :
    (generateQuotes config market fair n ob).askSize = askSizeOf config market fair n ob := rfl

lemma bidPriceOf_some_some (config : MarketMakerConfig) (m : Market)
    (fair n : ℚ) (book : Orderbook) :
    bidPriceOf config (some m) fair n (some book) =
      clampBid m.tickSize book.asks
        (roundToTick (some m) (posOr0 (fair * (1 - spreadBpsOf config n / 10000))) .down) := rfl

lemma askPriceOf_some_some (config : MarketMakerConfig) (m : Market)
    (fair n : ℚ) (book : Orderbook) :
    askPriceOf config (some m) fair n (some book) =
      clampAsk m.tickSize book.bids
        (roundToTick (some m) (posOr0 (fair * (1 + spreadBpsOf config n / 10000))) .up) := rfl

lemma bidPriceOf_none (config : MarketMakerConfig) (fair n : ℚ) (ob : Option Orderbook) :
    bidPriceOf config none fair n ob =
      posOr0 (fair * (1 - spreadBpsOf config n / 10000)) := rfl

lemma askPriceOf_none (config : MarketMakerConfig) (fair n : ℚ) (ob : Option Orderbook) :
    askPriceOf config none fair n ob =
      posOr0 (fair * (1 + spreadBpsOf config n / 10000)) := rfl

lemma bidPriceOf_some_none (config : MarketMakerConfig) (m : Market) (fair n : ℚ) :
    bidPriceOf config (some m) fair n none =
      roundToTick (some m) (posOr0 (fair * (1 - spreadBpsOf config n / 10000))) .down := rfl

lemma askPriceOf_some_none (config : MarketMakerConfig) (m : Market) (fair n : ℚ) :
    askPriceOf config (some m) fair n none =
      roundToTick (some m) (posOr0 (fair * (1 + spreadBpsOf config n / 10000))) .up := rfl

lemma generateQuotes_spreadBps (config : MarketMakerConfig) (market : Option Market)
    (fair n : ℚ) (ob : Option Orderbook) :
    (generateQuotes config market fair n ob).spreadBps = spreadBpsOf config n := rfl

lemma generateQuotes_isCloseMode (config : MarketMakerConfig) (market : Option Market)
    (fair n : ℚ) (ob : Option Orderbook) :
    (generateQuotes config market fair n ob).isCloseMode = isCloseModeOf config n := rfl

lemma clampBid_cons (t B s : ℚ) (rest : List (ℚ × ℚ)) (bid : ℚ) :
    clampBid t ((B, s) :: rest) bid = if bid ≥ B then min bid (B - t) else bid := rfl

lemma clampAsk_cons (t b s : ℚ) (rest : List (ℚ × ℚ)) (ask : ℚ) :
    clampAsk t ((b, s) :: rest) ask = if ask ≤ b then max ask (b + t) else ask := rfl

lemma spreadBpsOf_nonneg {config : MarketMakerConfig} (hs : 0 ≤ config.spreadBps)
    (ht : 0 ≤ config.takeProfitBps) (n : ℚ) : 0 ≤ spreadBpsOf config n := by
  unfold spreadBpsOf
  split
  · exact ht
  · exact hs

lemma mem_ite_singleton {α : Type} {c : Prop} [Decidable c] {a o : α}
    (h : o ∈ (if c then [a] else [])) : o = a := by
  split at h
  · simpa using h
  · simp at h

/-! Claim theorems. -/

/-- C1: with market metadata (tickSize > 0) set and an orderbook supplied,
the quote never touches or crosses the top of book: when the asks list is
non-empty with best ask B the returned bidPrice is strictly below B, and
when the bids list is non-empty with best bid b the returned askPrice is
strictly above b. -/
theorem generateQuotes_post_only_safety
    (config : MarketMakerConfig) (m : Market) (fairPrice positionNotional : ℚ)
    (book : Orderbook) (_hfair : 0 < fairPrice) (htick : 0 < m.tickSize) :
    (∀ B s rest, book.asks = (B, s) :: rest →
      (generateQuotes config (some m) fairPrice positionNotional (some book)).bidPrice < B) ∧
    (∀ b s rest, book.bids = (b, s) :: rest →
      b < (generateQuotes config (some m) fairPrice positionNotional (some book)).askPrice) := by
  constructor
  · intro B s rest hasks
    rw [generateQuotes_bidPrice, bidPriceOf_some_some, hasks, clampBid_cons]
    split
    · exact lt_of_le_of_lt (min_le_right _ _) (sub_lt_self B htick)
    · next h => exact lt_of_not_ge h
  · intro b s rest hbids
    rw [generateQuotes_askPrice, askPriceOf_some_some, hbids, clampAsk_cons]
    split
    · exact lt_of_lt_of_le (lt_add_of_pos_right b htick) (le_max_right _ _)
    · next h => exact not_le.mp h

/-- Witness for C1 at a concrete input. -/
theorem generateQuotes_post_only_safety_witness :
    (0:ℚ) < 100 ∧ (0:ℚ) < mW.tickSize ∧
    (generateQuotes cfgW (some mW) 100 0 (some bookW)).bidPrice < 105 ∧
    (99:ℚ) < (generateQuotes cfgW (some mW) 100 0 (some bookW)).askPrice :=
  ⟨by decide, by decide,
   (generateQuotes_post_only_safety cfgW mW 100 0 bookW (by decide) (by decide)).1
     105 1 [] rfl,
   (generateQuotes_post_only_safety cfgW mW 100 0 bookW (by decide) (by decide)).2
     99 1 [] rfl⟩

/-- C2: the returned isCloseMode flag is true exactly when the absolute
position notional strictly exceeds closeThresholdUsd (so equality at the
boundary gives false), and the spreadBps field is takeProfitBps in close
mode and the configured spreadBps otherwise. -/
theorem generateQuotes_close_mode_threshold
    (config : MarketMakerConfig) (market : Option Market)
    (fairPrice positionNotional : ℚ) (orderbook : Option Orderbook) :
    ((generateQuotes config market fairPrice positionNotional orderbook).isCloseMode = true ↔
      |positionNotional| > config.closeThresholdUsd) ∧
    (|positionNotional| = config.closeThresholdUsd →
      (generateQuotes config market fairPrice positionNotional orderbook).isCloseMode = false) ∧
    (generateQuotes config market fairPrice positionNotional orderbook).spreadBps =
      (if (generateQuotes config market fairPrice positionNotional orderbook).isCloseMode
        then config.takeProfitBps else config.spreadBps) := by
  refine ⟨?_, ?_, ?_⟩
  · rw [generateQuotes_isCloseMode]
    unfold isCloseModeOf
    exact decide_eq_true_iff
  · intro hEq
    rw [generateQuotes_isCloseMode]
    unfold isCloseModeOf
    simp [hEq]
  · rfl

/-- Witness for C2 at concrete inputs, including the boundary notional. -/
theorem generateQuotes_close_mode_threshold_witness :
    (generateQuotes cfgW none 100 600 none).isCloseMode = true ∧
    (generateQuotes cfgW none 100 500 none).isCloseMode = false :=
  ⟨(generateQuotes_close_mode_threshold cfgW none 100 600 none).1.mpr (by decide),
   (generateQuotes_close_mode_threshold cfgW none 100 500 none).2.1 (by decide)⟩

/-- C9 (amended): quoteToOrders emits exactly one request per side with
POSITIVE size, bid before ask, every request post-only, and reduceOnly equal
to the override OR the close-mode flag; both sizes zero gives zero orders,
and close mode forces reduceOnly on every emitted order. -/
theorem quoteToOrders_emission (config : MarketMakerConfig) (q : Quote) (ro : Bool) :
    ((quoteToOrders config q ro).map OrderRequest.side =
      (if 0 < q.bidSize then [Side.buy] else []) ++
      (if 0 < q.askSize then [Side.sell] else [])) ∧
    (∀ o ∈ quoteToOrders config q ro,
      o.postOnly = true ∧ o.reduceOnly = (ro || q.isCloseMode)) ∧
    (q.bidSize = 0 → q.askSize = 0 → quoteToOrders config q ro = []) ∧
    (q.isCloseMode = true → ∀ o ∈ quoteToOrders config q ro, o.reduceOnly = true) := by
  refine ⟨?_, ?_, ?_, ?_⟩
  · by_cases hb : 0 < q.bidSize <;> by_cases ha : 0 < q.askSize <;>
      simp [quoteToOrders, hb, ha, bidOrderOf, askOrderOf]
  · intro o ho
    rcases List.mem_append.mp ho with h | h
    · rw [mem_ite_singleton h]
      exact ⟨rfl, rfl⟩
    · rw [mem_ite_singleton h]
      exact ⟨rfl, rfl⟩
  · intro h0 h1
    simp [quoteToOrders, h0, h1]
  · intro hc o ho
    rcases List.mem_append.mp ho with h | h
    · rw [mem_ite_singleton h]
      show (ro || q.isCloseMode) = true
      rw [hc, Bool.or_true]
    · rw [mem_ite_singleton h]
      show (ro || q.isCloseMode) = true
      rw [hc, Bool.or_true]

/-- Witness for C9 at a concrete close-mode quote. -/
theorem quoteToOrders_emission_witness :
    (quoteToOrders cfgW ⟨99, 101, 0, 2, 100, 20, true⟩ false).map OrderRequest.side =
      [Side.sell] ∧
    (∀ o ∈ quoteToOrders cfgW ⟨99, 101, 0, 2, 100, 20, true⟩ false,
      o.reduceOnly = true) :=
  ⟨(quoteToOrders_emission cfgW ⟨99, 101, 0, 2, 100, 20, true⟩ false).1,
   (quoteToOrders_emission cfgW ⟨99, 101, 0, 2, 100, 20, true⟩ false).2.2.2 rfl⟩

/-- Counterexample to C9 as stated: a quote whose bid size is nonzero but
negative produces no order at all, while the claim (one request per side
with NONZERO size) demands one buy request. -/
theorem quoteToOrders_nonzero_counterexample :
    (⟨100, 101, -1, 0, 100, 10, false⟩ : Quote).bidSize ≠ 0 ∧
    quoteToOrders cfgW ⟨100, 101, -1, 0, 100, 10, false⟩ false = [] := by
  constructor
  · decide
  · rfl

/-- C10: with no market metadata set, generateQuotes ignores the orderbook
entirely (no rounding, no post-only clamp): the quote equals the one
computed with no orderbook, the bidPrice is the raw spread bid clamped at 0,
and the askPrice is exactly the raw spread ask. -/
theorem generateQuotes_no_metadata
    (config : MarketMakerConfig) (fairPrice : ℚ) (hfair : 0 < fairPrice)
    (hs : 0 ≤ config.spreadBps) (ht : 0 ≤ config.takeProfitBps)
    (positionNotional : ℚ) (orderbook : Option Orderbook) :
    generateQuotes config none fairPrice positionNotional orderbook =
      generateQuotes config none fairPrice positionNotional none ∧
    (generateQuotes config none fairPrice positionNotional orderbook).bidPrice =
      max 0 (fairPrice * (1 -
        (generateQuotes config none fairPrice positionNotional orderbook).spreadBps / 10000)) ∧
    (generateQuotes config none fairPrice positionNotional orderbook).askPrice =
      fairPrice * (1 +
        (generateQuotes config none fairPrice positionNotional orderbook).spreadBps / 10000) := by
  refine ⟨rfl, ?_, ?_⟩
  · rw [generateQuotes_bidPrice, bidPriceOf_none, generateQuotes_spreadBps]
    exact posOr0_eq_max _
  · rw [generateQuotes_askPrice, askPriceOf_none, generateQuotes_spreadBps]
    apply posOr0_of_pos
    have hsp : 0 ≤ spreadBpsOf config positionNotional := spreadBpsOf_nonneg hs ht _
    have h1 : (0:ℚ) < 1 + spreadBpsOf config positionNotional / 10000 :=
      add_pos_of_pos_of_nonneg one_pos (div_nonneg hsp (by norm_num))
    exact mul_pos hfair h1

/-- Witness for C10 at a concrete input with an orderbook whose best ask is
below the quoted bid. -/
theorem generateQuotes_no_metadata_witness :
    (0:ℚ) < 100 ∧ (0:ℚ) ≤ cfgW.spreadBps ∧ (0:ℚ) ≤ cfgW.takeProfitBps ∧
    generateQuotes cfgW none 100 0 (some ⟨[(99, 1)], [(99 + 1/2, 1)]⟩) =
      generateQuotes cfgW none 100 0 none ∧
    (generateQuotes cfgW none 100 0 (some ⟨[(99, 1)], [(99 + 1/2, 1)]⟩)).bidPrice =
      max 0 (100 * (1 -
        (generateQuotes cfgW none 100 0 (some ⟨[(99, 1)], [(99 + 1/2, 1)]⟩)).spreadBps / 10000)) :=
  ⟨by decide, by decide, by decide,
   (generateQuotes_no_metadata cfgW 100 (by decide) (by decide) (by decide) 0
     (some ⟨[(99, 1)], [(99 + 1/2, 1)]⟩)).1,
   (generateQuotes_no_metadata cfgW 100 (by decide) (by decide) (by decide) 0
     (some ⟨[(99, 1)], [(99 + 1/2, 1)]⟩)).2.1⟩

/-! Lemmas about the shared size pipeline of generateQuotes: division by the
final order price when positive, optional close-mode zeroing, ceiling
rounding. -/

lemma size_pipeline_notional (market : Option Market) (os p : ℚ)
    (zeroed : Prop) [Decidable zeroed]
    (hne : roundSize market (if zeroed then 0 else if 0 < p then os / p else 0) ≠ 0) :
    os ≤ roundSize market (if zeroed then 0 else if 0 < p then os / p else 0) * p := by
  have hs2 : (if zeroed then 0 else if 0 < p then os / p else 0) ≠ (0:ℚ) :=
    roundSize_ne_zero_imp market hne
  by_cases hz : zeroed
  · exact absurd (by simp [hz]) hs2
  · by_cases hp : 0 < p
    · rw [if_neg hz, if_pos hp] at hne ⊢
      have h1 : os / p ≤ roundSize market (os / p) := roundSize_le market _
      calc os = os / p * p := (div_mul_cancel₀ os (ne_of_gt hp)).symm
        _ ≤ roundSize market (os / p) * p := mul_le_mul_of_nonneg_right h1 hp.le
    · exact absurd (by simp [hz, hp]) hs2

lemma size_pipeline_nonneg (market : Option Market) (os p : ℚ)
    (zeroed : Prop) [Decidable zeroed] (hos : 0 ≤ os) :
    0 ≤ roundSize market (if zeroed then 0 else if 0 < p then os / p else 0) := by
  apply roundSize_nonneg
  by_cases hz : zeroed
  · simp [hz]
  · by_cases hp : 0 < p
    · rw [if_neg hz, if_pos hp]
      exact div_nonneg hos hp.le
    · simp [hz, hp]

lemma bidSizeOf_eq (config : MarketMakerConfig) (market : Option Market)
    (fair n : ℚ) (ob : Option Orderbook) :
    bidSizeOf config market fair n ob =
      roundSize market (if isCloseModeOf config n ∧ 0 < n then 0
        else if 0 < bidPriceOf config market fair n ob
          then config.orderSizeUsd / bidPriceOf config market fair n ob else 0) := rfl

lemma askSizeOf_eq (config : MarketMakerConfig) (market : Option Market)
    (fair n : ℚ) (ob : Option Orderbook) :
    askSizeOf config market fair n ob =
      roundSize market (if isCloseModeOf config n ∧ ¬0 < n then 0
        else if 0 < askPriceOf config market fair n ob
          then config.orderSizeUsd / askPriceOf config market fair n ob else 0) := rfl

/-- C4 (amended): each side of the quote whose SIZE is nonzero carries at
least the configured notional: size * price ≥ orderSizeUsd, because the size
is orderSizeUsd divided by the already-rounded order price and then rounded
up to the size precision. -/
theorem generateQuotes_notional_sufficiency
    (config : MarketMakerConfig) (market : Option Market)
    (fairPrice positionNotional : ℚ) (orderbook : Option Orderbook) :
    ((generateQuotes config market fairPrice positionNotional orderbook).bidSize ≠ 0 →
      config.orderSizeUsd ≤
        (generateQuotes config market fairPrice positionNotional orderbook).bidSize *
        (generateQuotes config market fairPrice positionNotional orderbook).bidPrice) ∧
    ((generateQuotes config market fairPrice positionNotional orderbook).askSize ≠ 0 →
      config.orderSizeUsd ≤
        (generateQuotes config market fairPrice positionNotional orderbook).askSize *
        (generateQuotes config market fairPrice positionNotional orderbook).askPrice) := by
  constructor
  · intro hne
    rw [generateQuotes_bidSize, bidSizeOf_eq] at hne ⊢
    rw [generateQuotes_bidPrice]
    exact size_pipeline_notional market config.orderSizeUsd _ _ hne
  · intro hne
    rw [generateQuotes_askSize, askSizeOf_eq] at hne ⊢
    rw [generateQuotes_askPrice]
    exact size_pipeline_notional market config.orderSizeUsd _ _ hne

/-- Witness for C4 at a concrete input: both sides are quoted and each
notional covers the 10 USD order size. -/
theorem generateQuotes_notional_sufficiency_witness :
    (generateQuotes cfgW none 100 0 none).bidSize ≠ 0 ∧
    cfgW.orderSizeUsd ≤
      (generateQuotes cfgW none 100 0 none).bidSize *
      (generateQuotes cfgW none 100 0 none).bidPrice :=
  ⟨by norm_num [generateQuotes, bidSizeOf, bidPriceOf, spreadBpsOf, isCloseModeOf,
      posOr0, roundSize, cfgW],
   (generateQuotes_notional_sufficiency cfgW none 100 0 none).1
     (by norm_num [generateQuotes, bidSizeOf, bidPriceOf, spreadBpsOf, isCloseModeOf,
        posOr0, roundSize, cfgW])⟩

/-- Counterexample to C4 as stated: in close mode with a long position the
bid price is nonzero but the bid size has been forced to 0, so
bidSize * bidPrice = 0 falls short of orderSizeUsd. -/
theorem generateQuotes_notional_counterexample :
    (generateQuotes cfgW none 100 600 none).bidPrice ≠ 0 ∧
    (generateQuotes cfgW none 100 600 none).bidSize *
      (generateQuotes cfgW none 100 600 none).bidPrice < cfgW.orderSizeUsd := by
  constructor
  · norm_num [generateQuotes, bidPriceOf, spreadBpsOf, isCloseModeOf, posOr0, cfgW]
  · norm_num [generateQuotes, bidSizeOf, bidPriceOf, spreadBpsOf, isCloseModeOf,
      posOr0, roundSize, cfgW]

/-! Nonnegativity of the price pipelines. -/

lemma bidPriceOf_nonneg (config : MarketMakerConfig) (market : Option Market)
    (fair n : ℚ) (ob : Option Orderbook)
    (htick : ∀ m, market = some m → 0 < m.tickSize)
    (hbook : ∀ m book B s rest, market = some m → ob = some book →
      book.asks = (B, s) :: rest → m.tickSize ≤ B) :
    0 ≤ bidPriceOf config market fair n ob := by
  match market with
  | none =>
    rw [bidPriceOf_none]
    exact posOr0_nonneg _
  | some m =>
    have ht := htick m rfl
    have hr : 0 ≤ roundToTick (some m)
        (posOr0 (fair * (1 - spreadBpsOf config n / 10000))) .down :=
      roundToTick_down_nonneg m ht (posOr0_nonneg _)
    match ob with
    | none =>
      rw [bidPriceOf_some_none]
      exact hr
    | some book =>
      rw [bidPriceOf_some_some]
      match hA : book.asks with
      | [] => exact hr
      | (B, s) :: rest =>
        rw [clampBid_cons]
        split
        · exact le_min hr (sub_nonneg.mpr (hbook m book B s rest rfl rfl hA))
        · exact hr

lemma askPriceOf_nonneg (config : MarketMakerConfig) (market : Option Market)
    (fair n : ℚ) (ob : Option Orderbook)
    (htick : ∀ m, market = some m → 0 < m.tickSize) :
    0 ≤ askPriceOf config market fair n ob := by
  match market with
  | none =>
    rw [askPriceOf_none]
    exact posOr0_nonneg _
  | some m =>
    have ht := htick m rfl
    have hr : 0 ≤ roundToTick (some m)
        (posOr0 (fair * (1 + spreadBpsOf config n / 10000))) .up :=
      roundToTick_up_nonneg m ht (posOr0_nonneg _)
    match ob with
    | none =>
      rw [askPriceOf_some_none]
      exact hr
    | some book =>
      rw [askPriceOf_some_some]
      match hB : book.bids with
      | [] => exact hr
      | (b, s) :: rest =>
        rw [clampAsk_cons]
        split
        · exact le_trans hr (le_max_left _ _)
        · exact hr

/-- C5 (amended): every field of the returned quote is nonnegative, for
every fairPrice > 0, any positionNotional, any or no market metadata with
tickSize > 0, and any or no orderbook - provided orderSizeUsd ≥ 0 and that,
when metadata and an orderbook with a non-empty asks list are both present,
the best ask is at least one tick. -/
theorem generateQuotes_nonneg (config : MarketMakerConfig) (market : Option Market)
    (fairPrice positionNotional : ℚ) (orderbook : Option Orderbook)
    (_hfair : 0 < fairPrice) (hos : 0 ≤ config.orderSizeUsd)
    (htick : ∀ m, market = some m → 0 < m.tickSize)
    (hbook : ∀ m book B s rest, market = some m → orderbook = some book →
      book.asks = (B, s) :: rest → m.tickSize ≤ B) :
    0 ≤ (generateQuotes config market fairPrice positionNotional orderbook).bidPrice ∧
    0 ≤ (generateQuotes config market fairPrice positionNotional orderbook).askPrice ∧
    0 ≤ (generateQuotes config market fairPrice positionNotional orderbook).bidSize ∧
    0 ≤ (generateQuotes config market fairPrice positionNotional orderbook).askSize := by
  refine ⟨?_, ?_, ?_, ?_⟩
  · rw [generateQuotes_bidPrice]
    exact bidPriceOf_nonneg config market fairPrice positionNotional orderbook htick hbook
  · rw [generateQuotes_askPrice]
    exact askPriceOf_nonneg config market fairPrice positionNotional orderbook htick
  · rw [generateQuotes_bidSize, bidSizeOf_eq]
    exact size_pipeline_nonneg market config.orderSizeUsd _ _ hos
  · rw [generateQuotes_askSize, askSizeOf_eq]
    exact size_pipeline_nonneg market config.orderSizeUsd _ _ hos

/-- Witness for C5 at a concrete input with metadata and an orderbook whose
best ask clears one tick. -/
theorem generateQuotes_nonneg_witness :
    0 ≤ (generateQuotes cfgW (some mW) 100 0 (some bookW)).bidPrice ∧
    0 ≤ (generateQuotes cfgW (some mW) 100 0 (some bookW)).askPrice ∧
    0 ≤ (generateQuotes cfgW (some mW) 100 0 (some bookW)).bidSize ∧
    0 ≤ (generateQuotes cfgW (some mW) 100 0 (some bookW)).askSize :=
  generateQuotes_nonneg cfgW (some mW) 100 0 (some bookW) (by decide) (by decide)
    (fun m h => by cases h; decide)
    (fun m book B s rest h1 h2 h3 => by
      cases h1
      cases h2
      injection h3 with h4 h5
      have hB : (105:ℚ) = B := congrArg Prod.fst h4
      subst hB
      decide)

/-- Counterexample to C5 as stated: with valid metadata (tick 1) and an
orderbook whose best ask is half a tick, the post-only clamp drives the bid
price to bestAsk - tickSize = -1/2 < 0. -/
theorem generateQuotes_nonneg_counterexample :
    (generateQuotes cfgW (some mW) 100 0 (some ⟨[], [(1/2, 1)]⟩)).bidPrice < 0 := by
  norm_num [generateQuotes, bidPriceOf, spreadBpsOf, isCloseModeOf, posOr0, roundToTick,
    clampBid, mW, cfgW]

/-- C6 (amended): roundToTick is idempotent on integer multiples of the tick
size in either direction; and whenever metadata with tickSize > 0 is set and
the post-only bid clamp cannot fire (no orderbook, or an empty asks list),
the returned bidPrice is a nonnegative integer multiple of tickSize. -/
theorem roundToTick_idempotent_bid_multiple :
    (∀ (m : Market), m.tickSize ≠ 0 → ∀ (k : ℤ) (dir : RoundDir),
      roundToTick (some m) ((k:ℚ) * m.tickSize) dir = (k:ℚ) * m.tickSize) ∧
    (∀ (config : MarketMakerConfig) (m : Market) (fair n : ℚ) (ob : Option Orderbook),
      0 < m.tickSize → (∀ book, ob = some book → book.asks = []) →
      ∃ j : ℕ, (generateQuotes config (some m) fair n ob).bidPrice = (j:ℚ) * m.tickSize) := by
  constructor
  · intro m ht k dir
    exact roundToTick_int_mul m ht k dir
  · intro config m fair n ob ht hasks
    have hx : 0 ≤ posOr0 (fair * (1 - spreadBpsOf config n / 10000)) := posOr0_nonneg _
    have hb : (generateQuotes config (some m) fair n ob).bidPrice =
        roundToTick (some m) (posOr0 (fair * (1 - spreadBpsOf config n / 10000))) .down := by
      rw [generateQuotes_bidPrice]
      match ob with
      | none => rw [bidPriceOf_some_none]
      | some book =>
        rw [bidPriceOf_some_some, hasks book rfl]
        rfl
    have hfl : (0:ℤ) ≤ ⌊posOr0 (fair * (1 - spreadBpsOf config n / 10000)) / m.tickSize⌋ :=
      Int.floor_nonneg.mpr (div_nonneg hx ht.le)
    refine ⟨⌊posOr0 (fair * (1 - spreadBpsOf config n / 10000)) / m.tickSize⌋.toNat, ?_⟩
    rw [hb]
    show (⌊posOr0 (fair * (1 - spreadBpsOf config n / 10000)) / m.tickSize⌋ : ℚ) * m.tickSize = _
    have hcast :
        ((⌊posOr0 (fair * (1 - spreadBpsOf config n / 10000)) / m.tickSize⌋.toNat : ℕ) : ℚ) =
        ((⌊posOr0 (fair * (1 - spreadBpsOf config n / 10000)) / m.tickSize⌋ : ℤ) : ℚ) := by
      exact_mod_cast congrArg (Int.cast : ℤ → ℚ) (Int.toNat_of_nonneg hfl)
    rw [hcast]

/-- Witness for C6: idempotence at tick 1 and multiple 7, and the bid of a
concrete no-orderbook quote is an integer multiple of the tick. -/
theorem roundToTick_idempotent_bid_multiple_witness :
    mW.tickSize ≠ 0 ∧ (0:ℚ) < mW.tickSize ∧
    roundToTick (some mW) ((7:ℤ) * mW.tickSize) .down = ((7:ℤ):ℚ) * mW.tickSize ∧
    ∃ j : ℕ, (generateQuotes cfgW (some mW) 100 0 none).bidPrice = (j:ℚ) * mW.tickSize :=
  ⟨by decide, by decide,
   roundToTick_idempotent_bid_multiple.1 mW (by decide) 7 .down,
   roundToTick_idempotent_bid_multiple.2 cfgW mW 100 0 none (by decide)
     (fun book h => Option.noConfusion h)⟩

/-- Counterexample to C6 as stated: with metadata set (tick 1) and an
orderbook whose best ask is 3/2, the clamp produces bidPrice = 1/2, which is
no integer multiple of the tick at all. -/
theorem generateQuotes_bid_multiple_counterexample :
    ¬ ∃ j : ℤ, (generateQuotes cfgW (some mW) 100 0 (some ⟨[], [(3/2, 1)]⟩)).bidPrice =
      (j:ℚ) * mW.tickSize := by
  have hval : (generateQuotes cfgW (some mW) 100 0 (some ⟨[], [(3/2, 1)]⟩)).bidPrice = 1/2 := by
    norm_num [generateQuotes, bidPriceOf, spreadBpsOf, isCloseModeOf, posOr0, roundToTick,
      clampBid, mW, cfgW]
  rintro ⟨j, hj⟩
  rw [hval, show mW.tickSize = 1 from rfl, mul_one] at hj
  have h2 : (2:ℚ) * (1/2) = 2 * (j:ℚ) := by rw [hj]
  norm_num at h2
  have h3 : (1:ℤ) = 2 * j := by exact_mod_cast h2
  omega

/-- C3 (amended): in close mode (which forces positionNotional ≠ 0 when the
threshold is nonnegative), the side that would increase the position is
forced to size 0, and the other side keeps a nonzero size provided its final
price is positive: long suppresses the bid, short suppresses the ask. -/
theorem generateQuotes_close_mode_suppression
    (config : MarketMakerConfig) (market : Option Market)
    (fairPrice positionNotional : ℚ) (orderbook : Option Orderbook)
    (hos : 0 < config.orderSizeUsd) (hthr : 0 ≤ config.closeThresholdUsd)
    (hclose : (generateQuotes config market fairPrice positionNotional orderbook).isCloseMode
      = true) :
    (0 < positionNotional →
      (generateQuotes config market fairPrice positionNotional orderbook).bidSize = 0 ∧
      (0 < (generateQuotes config market fairPrice positionNotional orderbook).askPrice →
        (generateQuotes config market fairPrice positionNotional orderbook).askSize ≠ 0)) ∧
    (positionNotional < 0 →
      (generateQuotes config market fairPrice positionNotional orderbook).askSize = 0 ∧
      (0 < (generateQuotes config market fairPrice positionNotional orderbook).bidPrice →
        (generateQuotes config market fairPrice positionNotional orderbook).bidSize ≠ 0)) ∧
    positionNotional ≠ 0 := by
  rw [generateQuotes_isCloseMode] at hclose
  refine ⟨?_, ?_, ?_⟩
  · intro hn
    constructor
    · rw [generateQuotes_bidSize, bidSizeOf_eq, if_pos ⟨hclose, hn⟩]
      exact roundSize_zero market
    · intro hp
      rw [generateQuotes_askPrice] at hp
      rw [generateQuotes_askSize, askSizeOf_eq,
        if_neg (fun h => h.2 hn), if_pos hp]
      exact ne_of_gt (roundSize_pos market (div_pos hos hp))
  · intro hn
    constructor
    · rw [generateQuotes_askSize, askSizeOf_eq, if_pos ⟨hclose, not_lt.mpr hn.le⟩]
      exact roundSize_zero market
    · intro hp
      rw [generateQuotes_bidPrice] at hp
      rw [generateQuotes_bidSize, bidSizeOf_eq,
        if_neg (fun h => absurd h.2 (not_lt.mpr hn.le)), if_pos hp]
      exact ne_of_gt (roundSize_pos market (div_pos hos hp))
  · have habs : |positionNotional| > config.closeThresholdUsd := of_decide_eq_true hclose
    exact abs_pos.mp (lt_of_le_of_lt hthr habs)

/-- Witness for C3 at a concrete close-mode long position. -/
theorem generateQuotes_close_mode_suppression_witness :
    (generateQuotes cfgW none 100 600 none).bidSize = 0 ∧
    (generateQuotes cfgW none 100 600 none).askSize ≠ 0 :=
  ⟨((generateQuotes_close_mode_suppression cfgW none 100 600 none (by decide) (by decide)
      (by decide)).1 (by decide)).1,
   ((generateQuotes_close_mode_suppression cfgW none 100 600 none (by decide) (by decide)
      (by decide)).1 (by decide)).2
    (by norm_num [generateQuotes, askPriceOf, spreadBpsOf, isCloseModeOf, posOr0, cfgW])⟩

/-- Counterexample to C3 as stated: with takeProfitBps = 10000 the close-mode
bid price collapses to 0, so for a short position BOTH sizes are 0 - not
exactly one. -/
theorem generateQuotes_close_mode_counterexample :
    (generateQuotes cfgB none 100 (-600) none).isCloseMode = true ∧
    (generateQuotes cfgB none 100 (-600) none).bidSize = 0 ∧
    (generateQuotes cfgB none 100 (-600) none).askSize = 0 := by
  refine ⟨by decide, ?_, ?_⟩
  · norm_num [generateQuotes, bidSizeOf, bidPriceOf, spreadBpsOf, isCloseModeOf,
      posOr0, roundSize, cfgB]
  · norm_num [generateQuotes, askSizeOf, askPriceOf, spreadBpsOf, isCloseModeOf,
      posOr0, roundSize, cfgB]

/-! Lemmas about the cancel-all classification loop. -/

lemma classifyStep_success (acc : ℕ × ℕ) :
    classifyStep acc .success = (acc.1 + 1, acc.2) := rfl

lemma classifyStep_error (acc : ℕ × ℕ) (msg : Option String) :
    classifyStep acc (.error msg) =
      if (msg.map isAlreadyGoneMsg).getD false then (acc.1 + 1, acc.2)
      else (acc.1, acc.2 + 1) := rfl

lemma foldl_classifyStep (S : List CancelStatus) (a b : ℕ) :
    S.foldl classifyStep (a, b) =
      (a + S.countP statusSucceeds, b + S.countP (fun st => !statusSucceeds st)) := by
  induction S generalizing a b with
  | nil => simp
  | cons st rest ih =>
    rw [List.foldl_cons]
    match st with
    | .success =>
      rw [classifyStep_success]
      rw [ih]
      simp [List.countP_cons, statusSucceeds]
      omega
    | .error msg =>
      rw [classifyStep_error]
      by_cases hg : (msg.map isAlreadyGoneMsg).getD false
      · rw [if_pos hg, ih]
        simp only [List.countP_cons, statusSucceeds, hg]
        simp
        omega
      · rw [if_neg hg, ih]
        simp only [List.countP_cons, statusSucceeds]
        simp [hg]
        omega

lemma classifyCancelStatuses_eq (S : List CancelStatus) :
    classifyCancelStatuses S =
      (S.countP statusSucceeds, S.countP (fun st => !statusSucceeds st)) := by
  unfold classifyCancelStatuses
  rw [foldl_classifyStep]
  simp

lemma buildCancels_ok (markets : List ExMarket) (orders : List ExOrder)
    (h : ∀ o ∈ orders, (findMarket markets o.symbol).isSome) :
    ∃ cs, buildCancels markets orders = .ok cs := by
  induction orders with
  | nil => exact ⟨[], rfl⟩
  | cons o rest ih =>
    obtain ⟨m, hm⟩ := Option.isSome_iff_exists.mp (h o (List.mem_cons_self o rest))
    obtain ⟨cs, hcs⟩ := ih (fun x hx => h x (List.mem_cons_of_mem o hx))
    refine ⟨(m.id, o.id) :: cs, ?_⟩
    simp [buildCancels, hm, hcs, Except.map]

lemma buildCancels_error (markets : List ExMarket) (orders : List ExOrder) (e : String)
    (h : buildCancels markets orders = .error e) :
    ∃ o ∈ orders, findMarket markets o.symbol = none := by
  induction orders with
  | nil => exact absurd h (by simp [buildCancels])
  | cons o rest ih =>
    match hm : findMarket markets o.symbol with
    | none => exact ⟨o, List.mem_cons_self o rest, hm⟩
    | some m =>
      rw [show buildCancels markets (o :: rest) =
          (buildCancels markets rest).map (fun cs => (m.id, o.id) :: cs) by
        simp [buildCancels, hm]] at h
      match hb : buildCancels markets rest with
      | .ok cs => rw [hb] at h; exact absurd h (by simp [Except.map])
      | .error e2 =>
        rw [hb] at h
        have he : e2 = e := by simpa [Except.map] using h
        subst he
        obtain ⟨o2, ho2, hno⟩ := ih hb
        exact ⟨o2, List.mem_cons_of_mem o ho2, hno⟩

lemma cancelAllOrders_fetch_error (markets : List ExMarket)
    (outcome : CancelBatchOutcome) (e : String) :
    cancelAllOrders (.error e) markets outcome = .error e := rfl

lemma cancelAllOrders_ok_unfold (orders : List ExOrder) (markets : List ExMarket)
    (outcome : CancelBatchOutcome) :
    cancelAllOrders (.ok orders) markets outcome =
      (if orders.isEmpty then .ok (0, 0)
      else
        match buildCancels markets orders with
        | .error e => .error e
        | .ok _cancels =>
          match outcome with
          | .ok resp => .ok (classifyCancelStatuses resp.statuses)
          | .errWithStatuses resp => .ok (classifyCancelStatuses resp.statuses)
          | .errPlain msg => .error msg) := rfl

/-- C7 (amended): when fetching and market resolution succeed and the
exchange reports a per-order status array (normally or wrapped in an error),
cancel-all returns the (successCount, failCount) classification without
raising, counting the success sentinel and already-gone error messages as
successes and everything else as failures; one already-gone error plus N
successes gives (N+1, 0); and it raises only when the fetch fails, a market
id cannot be resolved, or the batched cancel throws without a status array. -/
theorem cancelAllOrders_classification :
    (∀ (orders : List ExOrder) (markets : List ExMarket) (S : List CancelStatus)
      (outcome : CancelBatchOutcome),
      (∀ o ∈ orders, (findMarket markets o.symbol).isSome) →
      (outcome = .ok ⟨S⟩ ∨ outcome = .errWithStatuses ⟨S⟩) →
      orders ≠ [] →
      cancelAllOrders (.ok orders) markets outcome =
        .ok (S.countP statusSucceeds, S.countP (fun st => !statusSucceeds st))) ∧
    (∀ (msg : String) (N : ℕ), isAlreadyGoneMsg msg = true →
      classifyCancelStatuses (.error (some msg) :: List.replicate N .success) = (N + 1, 0)) ∧
    (∀ (fetchResult : Except String (List ExOrder)) (markets : List ExMarket)
      (outcome : CancelBatchOutcome) (r : String),
      cancelAllOrders fetchResult markets outcome = .error r →
      fetchResult = .error r ∨
      (∃ orders, fetchResult = .ok orders ∧ ∃ o ∈ orders, findMarket markets o.symbol = none) ∨
      outcome = .errPlain r) := by
  refine ⟨?_, ?_, ?_⟩
  · intro orders markets S outcome hres houtcome hne
    obtain ⟨cs, hcs⟩ := buildCancels_ok markets orders hres
    have hempty : orders.isEmpty = false := by
      cases orders with
      | nil => exact absurd rfl hne
      | cons o rest => rfl
    rw [cancelAllOrders_ok_unfold, hempty]
    simp only [Bool.false_eq_true, if_false, hcs]
    rcases houtcome with h | h <;> rw [h] <;>
      exact congrArg Except.ok (classifyCancelStatuses_eq S)
  · intro msg N h
    rw [classifyCancelStatuses_eq]
    have hst : statusSucceeds (.error (some msg)) = true := by
      simp [statusSucceeds, h]
    have hrep1 : (List.replicate N CancelStatus.success).countP statusSucceeds = N := by
      induction N with
      | zero => rfl
      | succ k ihk => simp [List.replicate_succ, List.countP_cons, statusSucceeds, ihk]
    have hrep2 :
        (List.replicate N CancelStatus.success).countP (fun st => !statusSucceeds st) = 0 := by
      induction N with
      | zero => rfl
      | succ k ihk => simp [List.replicate_succ, List.countP_cons, statusSucceeds, ihk]
    rw [List.countP_cons, List.countP_cons, hrep1, hrep2]
    simp [hst]
  · intro fetchResult markets outcome r h
    match fetchResult with
    | .error e =>
      rw [cancelAllOrders_fetch_error] at h
      injection h with he
      subst he
      exact Or.inl rfl
    | .ok orders =>
      rw [cancelAllOrders_ok_unfold] at h
      by_cases hempty : orders.isEmpty
      · rw [if_pos hempty] at h
        exact absurd h (by simp)
      · rw [if_neg hempty] at h
        match hb : buildCancels markets orders with
        | .error e =>
          rw [hb] at h
          injection h with he
          subst he
          exact Or.inr (Or.inl ⟨orders, rfl, buildCancels_error markets orders e hb⟩)
        | .ok cs =>
          rw [hb] at h
          match outcome with
          | .ok resp => exact absurd h (by simp)
          | .errWithStatuses resp => exact absurd h (by simp)
          | .errPlain msg =>
            injection h with he
            subst he
            exact Or.inr (Or.inr rfl)

/-- Witness for C7: the classification applied on the error-wrapped path at
a concrete batch, and the one-already-gone-plus-N-successes count. -/
theorem cancelAllOrders_classification_witness :
    cancelAllOrders (.ok orders1) markets1 (.errWithStatuses ⟨S7⟩) =
      .ok (S7.countP statusSucceeds, S7.countP (fun st => !statusSucceeds st)) ∧
    classifyCancelStatuses (.error (some goneW) :: List.replicate 2 .success) = (3, 0) :=
  ⟨cancelAllOrders_classification.1 orders1 markets1 S7 (.errWithStatuses ⟨S7⟩)
      (by decide) (Or.inr rfl) (by decide),
   cancelAllOrders_classification.2.1 goneW 2 (by decide)⟩

/-- Counterexample to C7 as stated: fetching succeeded and every market id
resolved, yet cancel-all still raises - because the batched cancel request
itself threw an error carrying no status array. -/
theorem cancelAllOrders_raise_counterexample :
    (∀ o ∈ orders1, (findMarket markets1 o.symbol).isSome) ∧
    cancelAllOrders (.ok orders1) markets1 (.errPlain "network error") =
      .error "network error" := by
  constructor
  · decide
  · rfl

/-- C8: the per-order status array is classified identically whether it
arrives in a normal success response or wrapped inside a thrown error, and a
thrown error carrying no status array propagates unchanged. -/
theorem cancelAllOrders_error_path_equiv :
    (∀ (fetchResult : Except String (List ExOrder)) (markets : List ExMarket)
      (S : List CancelStatus),
      cancelAllOrders fetchResult markets (.ok ⟨S⟩) =
        cancelAllOrders fetchResult markets (.errWithStatuses ⟨S⟩)) ∧
    (∀ (orders : List ExOrder) (markets : List ExMarket) (msg : String),
      orders ≠ [] →
      (∀ o ∈ orders, (findMarket markets o.symbol).isSome) →
      cancelAllOrders (.ok orders) markets (.errPlain msg) = .error msg) := by
  constructor
  · intro fetchResult markets S
    match fetchResult with
    | .error e => rfl
    | .ok orders =>
      rw [cancelAllOrders_ok_unfold, cancelAllOrders_ok_unfold]
  · intro orders markets msg hne hres
    obtain ⟨cs, hcs⟩ := buildCancels_ok markets orders hres
    have hempty : orders.isEmpty = false := by
      cases orders with
      | nil => exact absurd rfl hne
      | cons o rest => rfl
    rw [cancelAllOrders_ok_unfold, hempty]
    simp only [Bool.false_eq_true, if_false, hcs]

/-- Witness for C8 at a concrete batch. -/
theorem cancelAllOrders_error_path_equiv_witness :
    cancelAllOrders (.ok orders1) markets1 (.ok ⟨S7⟩) =
      cancelAllOrders (.ok orders1) markets1 (.errWithStatuses ⟨S7⟩) ∧
    orders1 ≠ [] ∧
    cancelAllOrders (.ok orders1) markets1 (.errPlain "boom") = .error "boom" :=
  ⟨cancelAllOrders_error_path_equiv.1 (.ok orders1) markets1 S7,
   by decide,
   cancelAllOrders_error_path_equiv.2 orders1 markets1 "boom" (by decide) (by decide)⟩

end Aftermath
